import Mathlib

/-!
Shallow embedding of the request-processing engine of `evmrpcproxy`
(`src/evmrpcproxy/evmrpc/*.py`, `src/evmrpcproxy/stats.py`) and proofs about
its specified properties.

JSON values are modelled by the inductive `JVal`; Python dicts are association
lists that keep insertion order (as Python dicts do).  Python exceptions are
modelled by explicit `Except` results (`PyErr` for language-level exceptions,
`EVMRPCExc` for the exception classes of `evmrpc_models.py`).
-/

/-- A JSON value, as decoded from an upstream body or carried in a request.
Python dict keys of decoded JSON are always strings, and insertion order is
preserved, hence the association-list representation of objects. -/
inductive JVal where
  | null : JVal
  | bool (b : Bool) : JVal
  | int (n : Int) : JVal
  | str (s : String) : JVal
  | arr (items : List JVal) : JVal
  | obj (fields : List (String × JVal)) : JVal

mutual

/-- Structural equality of JSON values (Python `==` on decoded JSON data). -/
def JVal.beq : JVal → JVal → Bool
  | .null, .null => true
  | .bool a, .bool b => a == b
  | .int a, .int b => a == b
  | .str a, .str b => a == b
  | .arr a, .arr b => JVal.beqList a b
  | .obj a, .obj b => JVal.beqObj a b
  | _, _ => false

def JVal.beqList : List JVal → List JVal → Bool
  | [], [] => true
  | x :: xs, y :: ys => JVal.beq x y && JVal.beqList xs ys
  | _, _ => false

def JVal.beqObj : List (String × JVal) → List (String × JVal) → Bool
  | [], [] => true
  | (k1, v1) :: xs, (k2, v2) :: ys => k1 == k2 && JVal.beq v1 v2 && JVal.beqObj xs ys
  | _, _ => false

end

mutual

theorem JVal.eq_of_beq : ∀ {a b : JVal}, JVal.beq a b = true → a = b
  | .null, .null, _ => rfl
  | .bool _, .bool _, h => by
    simp only [JVal.beq, beq_iff_eq] at h; exact congrArg _ h
  | .int _, .int _, h => by
    simp only [JVal.beq, beq_iff_eq] at h; exact congrArg _ h
  | .str _, .str _, h => by
    simp only [JVal.beq, beq_iff_eq] at h; exact congrArg _ h
  | .arr _, .arr _, h => congrArg _ (JVal.eqList_of_beqList (by simpa [JVal.beq] using h))
  | .obj _, .obj _, h => congrArg _ (JVal.eqObj_of_beqObj (by simpa [JVal.beq] using h))

theorem JVal.eqList_of_beqList : ∀ {a b : List JVal}, JVal.beqList a b = true → a = b
  | [], [], _ => rfl
  | x :: xs, y :: ys, h => by
    simp only [JVal.beqList, Bool.and_eq_true] at h
    exact congrArg₂ (· :: ·) (JVal.eq_of_beq h.1) (JVal.eqList_of_beqList h.2)

theorem JVal.eqObj_of_beqObj : ∀ {a b : List (String × JVal)}, JVal.beqObj a b = true → a = b
  | [], [], _ => rfl
  | (k1, v1) :: xs, (k2, v2) :: ys, h => by
    simp only [JVal.beqObj, Bool.and_eq_true, beq_iff_eq] at h
    have h1 : (k1, v1) = (k2, v2) := by
      have := JVal.eq_of_beq h.1.2
      simp [h.1.1, this]
    exact congrArg₂ (· :: ·) h1 (JVal.eqObj_of_beqObj h.2)

end

mutual

theorem JVal.beq_refl : ∀ (a : JVal), JVal.beq a a = true
  | .null => rfl
  | .bool _ => by simp [JVal.beq]
  | .int _ => by simp [JVal.beq]
  | .str _ => by simp [JVal.beq]
  | .arr xs => by simp [JVal.beq, JVal.beqList_refl xs]
  | .obj xs => by simp [JVal.beq, JVal.beqObj_refl xs]

theorem JVal.beqList_refl : ∀ (a : List JVal), JVal.beqList a a = true
  | [] => rfl
  | x :: xs => by simp [JVal.beqList, JVal.beq_refl x, JVal.beqList_refl xs]

theorem JVal.beqObj_refl : ∀ (a : List (String × JVal)), JVal.beqObj a a = true
  | [] => rfl
  | (k, v) :: xs => by simp [JVal.beqObj, JVal.beq_refl v, JVal.beqObj_refl xs]

end

instance : DecidableEq JVal := fun a b =>
  if h : JVal.beq a b = true then .isTrue (JVal.eq_of_beq h)
  else .isFalse (fun he => h (he ▸ JVal.beq_refl a))

/-- Python truthiness of a JSON value (`bool(x)`): `None`, `False`, `0`, `""`,
`[]` and `{}` are falsy. -/
def pyFalsy : JVal → Bool
  | .null => true
  | .bool b => !b
  | .int n => n == 0
  | .str s => s.isEmpty
  | .arr items => items.isEmpty
  | .obj fields => fields.isEmpty

/-- Python `dict.get(key)` on a JSON object: first binding of the key, if any. -/
def lookupKV (fields : List (String × JVal)) (key : String) : Option JVal :=
  match fields with
  | [] => none
  | (k, v) :: rest => if k == key then some v else lookupKV rest key

/-- Python `{**d, key: v}`: replace the value of `key` in place if present
(keeping its position, as Python dicts do), else append the binding. -/
def dictSet (fields : List (String × JVal)) (key : String) (v : JVal) :
    List (String × JVal) :=
  match fields with
  | [] => [(key, v)]
  | (k, w) :: rest =>
    if k == key then (k, v) :: rest else (k, w) :: dictSet rest key v

/-- `needle` is a prefix of `hay` (over characters). -/
def charsStartsWith : List Char → List Char → Bool
  | _, [] => true
  | [], _ :: _ => false
  | c :: cs, d :: ds => c == d && charsStartsWith cs ds

/-- Python substring containment `needle in hay` for strings. -/
def charsContains : List Char → List Char → Bool
  | [], needle => needle.isEmpty
  | c :: cs, needle => charsStartsWith (c :: cs) needle || charsContains cs needle

/-- Python `needle in hay` for strings. -/
def strContains (hay needle : String) : Bool :=
  charsContains hay.data needle.data

/-- Python `hex(n)`: `0x`-prefixed lowercase hexadecimal, `-0x...` for
negative values. -/
def pyHex (n : Int) : String :=
  (if n < 0 then "-0x" else "0x") ++ String.mk (Nat.toDigits 16 n.natAbs)

/-- Value of one hexadecimal digit character, if it is one. -/
def hexDigitVal (c : Char) : Option Nat :=
  if '0' ≤ c ∧ c ≤ '9' then some (c.toNat - '0'.toNat)
  else if 'a' ≤ c ∧ c ≤ 'f' then some (c.toNat - 'a'.toNat + 10)
  else if 'A' ≤ c ∧ c ≤ 'F' then some (c.toNat - 'A'.toNat + 10)
  else none

/-- Parse a non-empty run of hex digits. -/
def parseHexDigits : List Char → Option Nat
  | [] => none
  | cs =>
    cs.foldl
      (fun acc c =>
        match acc, hexDigitVal c with
        | some a, some d => some (a * 16 + d)
        | _, _ => none)
      (some 0)

/-- Python `int(s, 16)` on a string: optional surrounding whitespace, optional
sign, optional `0x`/`0X` prefix, then hex digits.  (Python additionally allows
single underscores between digits; that is not modelled.)  `none` models the
`ValueError` raised on malformed input. -/
def pyIntHexStr (s : String) : Option Int :=
  let cs := ((s.data.dropWhile Char.isWhitespace).reverse.dropWhile Char.isWhitespace).reverse
  let (sign, cs) : Int × List Char :=
    match cs with
    | '-' :: rest => (-1, rest)
    | '+' :: rest => (1, rest)
    | rest => (1, rest)
  let cs :=
    match cs with
    | '0' :: 'x' :: rest => rest
    | '0' :: 'X' :: rest => rest
    | rest => rest
  match parseHexDigits cs with
  | some n => some (sign * n)
  | none => none

/-- Python-level exceptions that the embedded code can raise. -/
inductive PyErr where
  | keyError : PyErr
  | indexError : PyErr
  | typeError : PyErr
  | attributeError : PyErr
  | valueError (msg : String) : PyErr
  | assertionError : PyErr
  | unboundLocalError (name : String) : PyErr
deriving DecidableEq, Repr

/-- `EVMRPCNodeConfig` of `evmrpc_config_model.py` (the `url` stands for the
template; secrets expansion is out of scope of the claims). -/
structure EVMRPCNodeConfig where
  chain_name : String
  node_name : String
  url : String
  max_blocks_distance : Option Int := some 3000
  headers : List (String × String) := []
  supports_batch : Bool := true
  supports_blockbook : Bool := false
deriving DecidableEq, Repr

/-- `EVMRPCRequestParams` of `evmrpc_models.py`. -/
structure EVMRPCRequestParams where
  allow_getlogs_mangle : Bool := false
  chain_id : Option Int := none
deriving DecidableEq, Repr

/-- `EVMRPCRequestSingle | EVMRPCRequestBatch` of `evmrpc_models.py`.
The constructor is the runtime class of the dataclass instance; `data` is kept
as an arbitrary JSON value in both because Python does not enforce the
`dict`/`list` annotations (and `req_from_singles` really does build a
`Single`-classed object whose `data` is a list). -/
inductive EVMRPCRequest where
  | single (data : JVal) (node_config : EVMRPCNodeConfig)
      (req_params : EVMRPCRequestParams) (try_n : Nat) : EVMRPCRequest
  | batch (data : JVal) (node_config : EVMRPCNodeConfig)
      (req_params : EVMRPCRequestParams) (try_n : Nat) : EVMRPCRequest
deriving DecidableEq

namespace EVMRPCRequest

def data : EVMRPCRequest → JVal
  | .single d _ _ _ => d
  | .batch d _ _ _ => d

def node_config : EVMRPCRequest → EVMRPCNodeConfig
  | .single _ nc _ _ => nc
  | .batch _ nc _ _ => nc

def req_params : EVMRPCRequest → EVMRPCRequestParams
  | .single _ _ rp _ => rp
  | .batch _ _ rp _ => rp

def try_n : EVMRPCRequest → Nat
  | .single _ _ _ t => t
  | .batch _ _ _ t => t

/-- `dataclasses.replace(req, data=...)`: builds a new instance of the *same*
runtime class with the `data` field replaced. -/
def replace_data : EVMRPCRequest → JVal → EVMRPCRequest
  | .single _ nc rp t, d => .single d nc rp t
  | .batch _ nc rp t, d => .batch d nc rp t

def isSingle : EVMRPCRequest → Bool
  | .single _ _ _ _ => true
  | .batch _ _ _ _ => false

end EVMRPCRequest

/-- `req_to_singles` of `evmrpc_models.py`.  The `assert isinstance` checks
are modelled as `AssertionError` results. -/
def req_to_singles (req : EVMRPCRequest) : Except PyErr (List EVMRPCRequest) :=
  match req with
  | .single d nc rp t =>
    match d with
    | .obj _ => .ok [.single d nc rp t]
    | _ => .error .assertionError
  | .batch d nc rp t =>
    match d with
    | .arr items => .ok (items.map (fun subreq => .single subreq nc rp t))
    | _ => .error .assertionError

/-- `req_from_singles` of `evmrpc_models.py`.  Raised `ValueError`s and failed
`assert`s become `Except.error`.  Note that the one-element case with a batch
`req_to_match` returns `req.replace(data=[req.data])`, which keeps the
runtime class of `req` (a `Single`). -/
def req_from_singles (reqs : List EVMRPCRequest)
    (req_to_match : Option EVMRPCRequest) : Except PyErr EVMRPCRequest :=
  match reqs with
  | [] => .error (.valueError "Cannot combine zero requests")
  | [req] =>
    match req with
    | .batch _ _ _ _ => .error .assertionError
    | .single d nc rp t =>
      match d with
      | .obj _ =>
        match req_to_match with
        | none => .ok (.single d nc rp t)
        | some (.single _ _ _ _) => .ok (.single d nc rp t)
        | some (.batch md _ _ _) =>
          match md with
          | .arr mitems =>
            if mitems.length == 1 then
              .ok ((EVMRPCRequest.single d nc rp t).replace_data (.arr [d]))
            else .error .assertionError
          | _ => .error .assertionError
      | _ => .error .assertionError
  | req0 :: rest =>
    let ref_req := req0.replace_data .null
    let misplaced :=
      (req0 :: rest).filter (fun r => decide (¬ r.replace_data .null = ref_req))
    if misplaced.isEmpty then
      .ok (.batch (.arr ((req0 :: rest).map EVMRPCRequest.data))
        ref_req.node_config ref_req.req_params ref_req.try_n)
    else .error (.valueError "Mismatch in single-requests")

/-- `EVMRPCResponse` of `evmrpc_models.py`. -/
structure EVMRPCResponse where
  data : JVal
  req : EVMRPCRequest
deriving DecidableEq

/-- `EVMRPCResponse.from_single_req`: synthesizes
`{jsonrpc: req.data.get("jsonrpc") or "2.0", id: req.data.get("id"), result}`.
The `or` falls back to `"2.0"` whenever the request value is falsy. -/
def from_single_req (req : EVMRPCRequest) (result : JVal) :
    Except PyErr EVMRPCResponse :=
  match req.data with
  | .obj kvs =>
    .ok { data := .obj
            [("jsonrpc",
              match lookupKV kvs "jsonrpc" with
              | some v => if pyFalsy v then .str "2.0" else v
              | none => .str "2.0"),
             ("id", (lookupKV kvs "id").getD .null),
             ("result", result)],
          req := req }
  | _ => .error .assertionError

/-- Python `"error" in item` for one element of a list response: key lookup
for dicts, element equality for lists, substring for strings; `none` models
the `TypeError` raised by non-container items. -/
def pyContainsError : JVal → Option Bool
  | .obj kvs => some (kvs.any (fun kv => kv.1 == "error"))
  | .arr items =>
    some (items.any (fun x => match x with | .str s => s == "error" | _ => false))
  | .str s => some (strContains s "error")
  | _ => none

/-- Lazy scan of `any("error" in item for item in data)` inside the
`try`/`except` of `EVMRPCResponse.has_errors`: the first raising item aborts
the whole check and yields `False`. -/
def hasErrorsScan : List JVal → Bool
  | [] => false
  | x :: xs =>
    match pyContainsError x with
    | none => false
    | some true => true
    | some false => hasErrorsScan xs

/-- `EVMRPCResponse.has_errors` as a function of the response data.  Iterating
a string yields one-character strings (never containing `"error"`); iterating
a non-iterable raises `TypeError`, which the `except` swallows into `False`. -/
def hasErrorsData (data : JVal) : Bool :=
  match data with
  | .obj kvs => kvs.any (fun kv => kv.1 == "error")
  | .arr items => hasErrorsScan items
  | _ => false

def EVMRPCResponse.has_errors (resp : EVMRPCResponse) : Bool :=
  hasErrorsData resp.data

mutual

/-- Python `repr` of a decoded JSON value (used by `parse_one` when an error
`message` is not a string).  String escaping inside `repr` of strings is not
modelled. -/
def pyRepr : JVal → String
  | .null => "None"
  | .bool b => if b then "True" else "False"
  | .int n => toString n
  | .str s => "\x27" ++ s ++ "\x27"
  | .arr items => "[" ++ pyReprList items ++ "]"
  | .obj fields => "\x7b" ++ pyReprObj fields ++ "\x7d"

def pyReprList : List JVal → String
  | [] => ""
  | [x] => pyRepr x
  | x :: xs => pyRepr x ++ ", " ++ pyReprList xs

def pyReprObj : List (String × JVal) → String
  | [] => ""
  | [(k, v)] => "\x27" ++ k ++ "\x27: " ++ pyRepr v
  | (k, v) :: xs => "\x27" ++ k ++ "\x27: " ++ pyRepr v ++ ", " ++ pyReprObj xs

end

/-- `EVMRPC_NO_CODE` of `evmrpc_models.py`. -/
def EVMRPC_NO_CODE : Int := 0

/-- One parsed RPC-level error of a response (`EVMRPCResponseError` of
`evmrpc_models.py`; the back-reference to the response, used only for
logging, is not carried). -/
structure EVMRPCResponseErrorM where
  code : Int
  message : String
deriving DecidableEq

/-- `EVMRPCResponseError.parse_one`.  Note `isinstance(code, int)` is true
for Python booleans, which count as `1`/`0`. -/
def parse_one (resp_data_item : JVal) : Option EVMRPCResponseErrorM :=
  match resp_data_item with
  | .obj kvs =>
    match lookupKV kvs "error" with
    | none => none
    | some e =>
      if pyFalsy e then none
      else
        match e with
        | .obj ekvs =>
          let code : Int :=
            match lookupKV ekvs "code" with
            | some (.int n) => n
            | some (.bool b) => if b then 1 else 0
            | some _ => EVMRPC_NO_CODE
            | none => EVMRPC_NO_CODE
          let message : String :=
            match lookupKV ekvs "message" with
            | some (.str s) => s
            | some v => pyRepr v
            | none => ""
          some { code := code, message := message }
        | _ => some { code := EVMRPC_NO_CODE, message := "Non-dict error" }
  | _ => some { code := EVMRPC_NO_CODE, message := "Non-dict response" }

/-- `EVMRPCResponseError.parse` as a function of the response data. -/
def parseResponseErrors (data : JVal) : List EVMRPCResponseErrorM :=
  match data with
  | .arr items => items.filterMap parse_one
  | other => (parse_one other).toList

/-- `EVMRPC_NONRETRIABLE_CODES` of `evmrpc_utils.py`. -/
def EVMRPC_NONRETRIABLE_CODES : List Int := [3, -32015, -32010, 32601]

/-- `EVMRPC_NONRETRIABLE_MESSAGES` of `evmrpc_utils.py`. -/
def EVMRPC_NONRETRIABLE_MESSAGES : List String :=
  [": tx already in mempool",
   "RPC error response: RPC error response: INTERNAL_ERROR: nonce too low"]

/-- `EVMRPC_NONRETRIABLE_MESSAGE_PREFIXES` of `evmrpc_utils.py`. -/
def EVMRPC_NONRETRIABLE_MESSAGE_STARTS : List String :=
  ["nonce too low: ",
   "rpc error: code = Unknown desc = execution reverted"]

/-- `is_evmrpc_error_response_retriable` of `evmrpc_utils.py`. -/
def is_evmrpc_error_response_retriable (code : Int) (message : String) : Bool :=
  if EVMRPC_NONRETRIABLE_CODES.contains code then false
  else if EVMRPC_NONRETRIABLE_MESSAGES.contains message then false
  else if EVMRPC_NONRETRIABLE_MESSAGE_STARTS.any
      (fun p => charsStartsWith message.data p.data) then false
  else true

/-- The `EVMRPCErrorException` hierarchy of `evmrpc_models.py`, plus the other
exceptions the client loop can see.  `errorResponseException` is the subclass
`EVMRPCErrorResponseException` (whose `last_status` is `0` and message
`"EVMRPC response error"`); `noNodesAvailable` is the `NoNodesAvailable`
key-error; `otherExc` stands for any remaining exception (transport errors,
logic errors) identified by its message. -/
inductive EVMRPCExc where
  | errorException (last_response : Option EVMRPCResponse) (last_status : Int)
      (message : String) : EVMRPCExc
  | errorResponseException (last_response : EVMRPCResponse) : EVMRPCExc
  | noNodesAvailable (chain_name : String) : EVMRPCExc
  | otherExc (message : String) : EVMRPCExc
deriving DecidableEq

/-- `EVMRPCClient._check_response`: parse RPC-level errors; if any of them is
retriable, raise `EVMRPCErrorResponseException`; otherwise (including the
no-errors case) return normally. -/
def check_response (resp : EVMRPCResponse) : Except EVMRPCExc Unit :=
  let errors := parseResponseErrors resp.data
  if errors.isEmpty then .ok ()
  else if errors.any (fun e => is_evmrpc_error_response_retriable e.code e.message) then
    .error (.errorResponseException resp)
  else .ok ()

/-- The part of `EVMRPCClient._request_one_call` after the HTTP POST, as a
function of the HTTP status, the raw body text, and the JSON-decoded body
(`none` when the body fails to decode).  A decoded body that is not a list or
dict takes the same path as a decode failure (the `ValueError` is caught by
the same `except`). -/
def request_one_call (req : EVMRPCRequest) (http_status : Int) (raw : String)
    (decoded : Option JVal) : Except EVMRPCExc EVMRPCResponse :=
  let http_resp_ok := http_status == 200
  let container : Option JVal :=
    match decoded with
    | some (.arr items) => some (.arr items)
    | some (.obj kvs) => some (.obj kvs)
    | _ => none
  match container with
  | none =>
    .error (.errorException
      (some { data := .obj [("__raw__", .str raw)], req := req })
      http_status
      (if http_resp_ok then "EVMRPC response failed to parse as JSON list/dict"
       else "EVMRPC error failed to parse as JSON list/dict"))
  | some resp_data =>
    let resp : EVMRPCResponse := { data := resp_data, req := req }
    match check_response resp with
    | .error e => .error e
    | .ok _ =>
      if http_resp_ok then .ok resp
      else .error (.errorException (some resp) http_status "EVMRPC node error status")

/-- The per-chain state of `EVMRPCClient`: `evmrpc_chains[chain_name]`
(node name to config) and `rotation_order[chain_name]` (the mutable rotation
list of node names built by `__post_init__`). -/
structure ChainState where
  nodes : List (String × EVMRPCNodeConfig)
  rotation : List String
deriving DecidableEq

/-- Python `dict[key]` lookup on the per-chain node-config map. -/
def lookupNode (nodes : List (String × EVMRPCNodeConfig)) (key : String) :
    Option EVMRPCNodeConfig :=
  match nodes with
  | [] => none
  | (k, v) :: rest => if k == key then some v else lookupNode rest key

/-- `EVMRPCClient.get_node_config`: raise `NoNodesAvailable` on an empty
rotation list; with `rotate=True` move the head name to the tail in place;
return the config of the (possibly new) head name. -/
def get_node_config (st : ChainState) (chain_name : String) (rotate : Bool) :
    Except EVMRPCExc (EVMRPCNodeConfig × ChainState) :=
  match st.rotation with
  | [] => .error (.noNodesAvailable chain_name)
  | x :: xs =>
    let names := if rotate then xs ++ [x] else x :: xs
    match lookupNode st.nodes (names.headD x) with
    | none => .error (.otherExc "KeyError")
    | some cfg => .ok (cfg, { st with rotation := names })

/-- `K` successive forced rotations (`get_node_config(..., rotate=True)`);
a raise leaves the rotation list untouched. -/
def rotKState (st : ChainState) (chain_name : String) : Nat → ChainState
  | 0 => st
  | k + 1 =>
    let prev := rotKState st chain_name k
    match get_node_config prev chain_name true with
    | .ok (_, st2) => st2
    | .error _ => prev

deriving instance DecidableEq for Except

/-- Result of the retry loop of `EVMRPCClient.request`: the returned response
or propagated exception, the `(try_n, node_name)` of every pipeline
invocation, and the final rotation list. -/
structure RequestOutcome where
  result : Except EVMRPCExc EVMRPCResponse
  attempts : List (Nat × String)
  final_rotation : List String
deriving DecidableEq

/-- The `for try_n in range(retry_attempts)` loop of `EVMRPCClient.request`.
`pipeline` stands for `_request_one_node` (the middleware onion); `fuel` is
the number of remaining iterations (`retry_attempts - try_n`).  On the final
attempt a raised `EVMRPCErrorResponseException` is converted into returning
its `last_response`; other exceptions re-raise.  On a non-final failure, and
on a successful response that `has_errors`, the pool is force-rotated. -/
def requestLoop (pipeline : EVMRPCRequest → Except EVMRPCExc EVMRPCResponse)
    (chain_name : String) (data : JVal) (dataIsList : Bool)
    (req_params : EVMRPCRequestParams) :
    Nat → ChainState → EVMRPCNodeConfig → Nat → RequestOutcome
  | 0, st, _, _ =>
    { result := .error (.otherExc "Logic error: this line should never be reached"),
      attempts := [], final_rotation := st.rotation }
  | fuel + 1, st, node_config, try_n =>
    let req : EVMRPCRequest :=
      if dataIsList then .batch data node_config req_params try_n
      else .single data node_config req_params try_n
    let attempt := (try_n, node_config.node_name)
    match pipeline req with
    | .error exc =>
      if fuel == 0 then
        -- final attempt
        { result :=
            match exc with
            | .errorResponseException resp => .ok resp
            | e => .error e,
          attempts := [attempt], final_rotation := st.rotation }
      else
        match get_node_config st chain_name true with
        | .error e =>
          { result := .error e, attempts := [attempt], final_rotation := st.rotation }
        | .ok (cfg, st2) =>
          let rest := requestLoop pipeline chain_name data dataIsList req_params
            fuel st2 cfg (try_n + 1)
          { result := rest.result, attempts := attempt :: rest.attempts,
            final_rotation := rest.final_rotation }
    | .ok resp =>
      if resp.has_errors then
        match get_node_config st chain_name true with
        | .error e =>
          { result := .error e, attempts := [attempt], final_rotation := st.rotation }
        | .ok (_, st2) =>
          { result := .ok resp, attempts := [attempt], final_rotation := st2.rotation }
      else
        { result := .ok resp, attempts := [attempt], final_rotation := st.rotation }

/-- The fields of `EVMRPCClient` the retry loop depends on
(`retry_attempts` defaults to `5`). -/
structure ClientModel where
  retry_attempts : Nat := 5
deriving DecidableEq

/-- `EVMRPCClient.request`: pin to `node_name` with one attempt when it is
supplied, else start from the current rotation head with
`client.retry_attempts` attempts. -/
def requestModel (client : ClientModel)
    (pipeline : EVMRPCRequest → Except EVMRPCExc EVMRPCResponse)
    (st : ChainState) (chain_name : String) (data : JVal) (dataIsList : Bool)
    (req_params : EVMRPCRequestParams) (node_name : Option String) :
    RequestOutcome :=
  let retry_attempts := if node_name.isSome then 1 else client.retry_attempts
  match node_name with
  | some n =>
    match lookupNode st.nodes n with
    | none =>
      { result := .error (.otherExc "KeyError"), attempts := [],
        final_rotation := st.rotation }
    | some cfg =>
      requestLoop pipeline chain_name data dataIsList req_params
        retry_attempts st cfg 0
  | none =>
    match get_node_config st chain_name false with
    | .error e =>
      { result := .error e, attempts := [], final_rotation := st.rotation }
    | .ok (cfg, st2) =>
      requestLoop pipeline chain_name data dataIsList req_params
        retry_attempts st2 cfg 0

/-- The monad of the middleware onion: Python exceptions plus a log of the
requests passed further down the chain (towards the upstream caller).
Concurrent `aiogather` fan-out is modelled as sequential execution; the
claims under study do not depend on interleaving. -/
abbrev MW (α : Type) := EStateM PyErr (List EVMRPCRequest) α

/-- Run a pure `Except` step inside the middleware monad. -/
def liftE {σ α : Type} (x : Except PyErr α) : EStateM PyErr σ α :=
  fun s =>
    match x with
    | .ok a => .ok a s
    | .error e => .error e s

/-- An abstract `next_handler`, instrumented to record every request that is
actually forwarded to it. -/
def loggingNext (upstream : EVMRPCRequest → EVMRPCResponse) :
    EVMRPCRequest → MW EVMRPCResponse :=
  fun r s => .ok (upstream r) (s ++ [r])

/-- Helper of `pick_out_special_items` carrying the `enumerate` index. -/
def pickOutGo {α : Type} (is_special : α → Except PyErr Bool) :
    Nat → List α → Except PyErr (List α × List (Nat × α))
  | _, [] => .ok ([], [])
  | idx, x :: xs => do
    let b ← is_special x
    let (ns, ss) ← pickOutGo is_special (idx + 1) xs
    if b then pure (ns, (idx, x) :: ss) else pure (x :: ns, ss)

/-- `pick_out_special_items` of `evmrpc/utils.py` (the predicate may raise). -/
def pick_out_special_items {α : Type} (items : List α)
    (is_special : α → Except PyErr Bool) :
    Except PyErr (List α × List (Nat × α)) :=
  pickOutGo is_special 0 items

/-- Python `list.insert(idx, a)`: insert before position `idx`, appending when
`idx` is past the end. -/
def pyInsert {α : Type} : List α → Nat → α → List α
  | l, 0, a => a :: l
  | [], _ + 1, a => [a]
  | x :: xs, n + 1, a => x :: pyInsert xs n a

/-- `put_in_special_results` of `evmrpc/utils.py`. -/
def put_in_special_results {α : Type} (normal_results : List α)
    (special_results : List (Nat × α)) : List α :=
  special_results.foldl (fun acc p => pyInsert acc p.1 p.2) normal_results

/-- `_match_batch` of `evmrpc_middleware.py`: a `Single` request must produce
a non-list response; a one-element list response is unwrapped. -/
def match_batch (resp : EVMRPCResponse) (req : EVMRPCRequest) :
    Except PyErr EVMRPCResponse :=
  match req with
  | .single d _ _ _ =>
    match d with
    | .obj _ =>
      match resp.data with
      | .obj kvs => .ok { resp with data := .obj kvs }
      | .arr items =>
        match items with
        | [x] => .ok { resp with data := x }
        | _ => .error .assertionError
      | _ => .error .assertionError
    | _ => .error .assertionError
  | .batch _ _ _ _ => .ok resp

/-- `EVMRPCSingleRequestHandlerMiddlewareBase._handle_normal`. -/
def srhHandleNormal (next : EVMRPCRequest → MW EVMRPCResponse)
    (reqs : List EVMRPCRequest) (top_req : EVMRPCRequest) : MW EVMRPCResponse := do
  if reqs.isEmpty then pure { data := .arr [], req := top_req }
  else do
    let req ← liftE (req_from_singles reqs none)
    let resp ← next req
    match req with
    | .single _ _ _ _ =>
      if reqs.length == 1 then
        match resp.data with
        | .obj kvs => pure { resp with data := .arr [.obj kvs] }
        | _ => liftE (.error .assertionError)
      else liftE (.error .assertionError)
    | .batch _ _ _ _ => pure resp

/-- `EVMRPCSingleRequestHandlerMiddlewareBase._handle_relevant`. -/
def srhHandleRelevant (hsr : EVMRPCRequest → MW EVMRPCResponse)
    (reqs : List EVMRPCRequest) (top_req : EVMRPCRequest) : MW EVMRPCResponse := do
  if reqs.isEmpty then pure { data := .arr [], req := top_req }
  else do
    let resps ← reqs.mapM hsr
    pure { data := .arr (resps.map EVMRPCResponse.data), req := top_req }

/-- `EVMRPCSingleRequestHandlerMiddlewareBase.handle`, generic over the
`is_req_relevant` predicate and `handle_single_req` handler. -/
def srhHandle (isRel : EVMRPCRequest → Except PyErr Bool)
    (hsr : EVMRPCRequest → MW EVMRPCResponse)
    (next : EVMRPCRequest → MW EVMRPCResponse)
    (req : EVMRPCRequest) : MW EVMRPCResponse := do
  let reqs ← liftE (req_to_singles req)
  let (reqs_normal, reqs_relevant_with_idx) ← liftE (pick_out_special_items reqs isRel)
  if reqs_relevant_with_idx.isEmpty then next req
  else
    let reqs_relevant := reqs_relevant_with_idx.map Prod.snd
    if reqs_normal.isEmpty then do
      let resp_relevant ← srhHandleRelevant hsr reqs_relevant req
      liftE (match_batch resp_relevant req)
    else do
      let resp_normal ← srhHandleNormal next reqs_normal req
      let resp_relevant ← srhHandleRelevant hsr reqs_relevant req
      match resp_normal.data with
      | .arr data_normal =>
        match resp_relevant.data with
        | .arr data_relevant =>
          if data_relevant.length == reqs_relevant_with_idx.length then
            let data_relevant_with_idx :=
              (reqs_relevant_with_idx.zip data_relevant).map (fun p => (p.1.1, p.2))
            pure { resp_normal with
                   data := .arr (put_in_special_results data_normal data_relevant_with_idx) }
          else liftE (.error .assertionError)
        | _ => liftE (.error .assertionError)
      | _ => pure resp_normal

/-- `EVMRPCChainIdMiddleware.is_req_relevant`. -/
def chainid_is_req_relevant (req : EVMRPCRequest) : Except PyErr Bool :=
  match req.data with
  | .obj kvs =>
    .ok ((match lookupKV kvs "method" with
          | some (.str s) => s == "eth_chainId"
          | _ => false)
      && req.req_params.chain_id.isSome)
  | _ => .error .attributeError

/-- `EVMRPCChainIdMiddleware.handle_single_req`. -/
def chainid_handle_single_req (req : EVMRPCRequest) : Except PyErr EVMRPCResponse := do
  let rel ← chainid_is_req_relevant req
  if rel then
    match req.req_params.chain_id with
    | some c => from_single_req req (.str (pyHex c))
    | none => .error .assertionError
  else .error .assertionError

/-- The fully assembled `EVMRPCChainIdMiddleware.handle`. -/
def chainIdHandle (next : EVMRPCRequest → MW EVMRPCResponse)
    (req : EVMRPCRequest) : MW EVMRPCResponse :=
  srhHandle chainid_is_req_relevant (fun r => liftE (chainid_handle_single_req r)) next req

/-- Python subscript `v[0]` on a decoded JSON value: list head, first
character of a string, `KeyError` on a string-keyed dict, `TypeError`
otherwise. -/
def pyGetItemZero (v : JVal) : Except PyErr JVal :=
  match v with
  | .arr items =>
    match items with
    | [] => .error .indexError
    | x :: _ => .ok x
  | .obj _ => .error .keyError
  | .str s =>
    match s.data with
    | [] => .error .indexError
    | c :: _ => .ok (.str (String.mk [c]))
  | _ => .error .typeError

/-- Python `int(x, 16)` on an arbitrary value: `TypeError` for non-strings,
`ValueError` for malformed strings. -/
def pyIntHexJ (v : JVal) : Except PyErr Int :=
  match v with
  | .str s =>
    match pyIntHexStr s with
    | some n => .ok n
    | none => .error (.valueError "invalid literal for int() with base 16")
  | _ => .error .typeError

/-- The hex-parsing and rewriting tail of
`EVMRPCMangleGetlogsMiddleware._mangle_eth_getlogs`, after
`params`/`fromBlock`/`toBlock` have been extracted.  The `except ValueError`
branch logs `from_block`, which is unbound when `int(from_block_hex, 16)`
itself raised, so that branch raises `UnboundLocalError` instead of
returning; `to_block` was pre-initialized to `None`, so a failure of the
second parse does log and return the data untouched. -/
def mangleParse (req_kvs params_kvs : List (String × JVal)) (fbh tbh : JVal)
    (max_blocks_distance : Int) : Except PyErr JVal :=
  match pyIntHexJ fbh with
  | .error (.valueError _) => .error (.unboundLocalError "from_block")
  | .error e => .error e
  | .ok from_block =>
    match pyIntHexJ tbh with
    | .error (.valueError _) => .ok (.obj req_kvs)
    | .error e => .error e
    | .ok to_block =>
      if to_block - from_block > max_blocks_distance then
        let new_from_block_hex := pyHex (to_block - max_blocks_distance)
        .ok (.obj (dictSet req_kvs "params"
          (.arr [.obj (dictSet params_kvs "fromBlock" (.str new_from_block_hex))])))
      else .ok (.obj req_kvs)

/-- `EVMRPCMangleGetlogsMiddleware._mangle_eth_getlogs`.  The
`except (KeyError, IndexError)` around the three lookups returns the data
untouched; a `TypeError` from a lookup (e.g. a non-dict `params[0]`) is not
caught and propagates. -/
def mangle_eth_getlogs (req_data : JVal) (max_blocks_distance : Int) :
    Except PyErr JVal :=
  match req_data with
  | .obj kvs =>
    match lookupKV kvs "params" with
    | none => .ok req_data
    | some params_list =>
      match pyGetItemZero params_list with
      | .error .keyError => .ok req_data
      | .error .indexError => .ok req_data
      | .error e => .error e
      | .ok params =>
        match params with
        | .obj pkvs =>
          match lookupKV pkvs "fromBlock" with
          | none => .ok req_data
          | some fbh =>
            match lookupKV pkvs "toBlock" with
            | none => .ok req_data
            | some tbh => mangleParse kvs pkvs fbh tbh max_blocks_distance
        | _ => .error .typeError
  | _ => .error .typeError

/-- `EVMRPCMangleGetlogsMiddleware.process_single_req` (the three-way `and`
short-circuits left to right; a zero or `None` `max_blocks_distance` is
falsy). -/
def mangle_process_single_req (req : EVMRPCRequest) : Except PyErr EVMRPCRequest :=
  if req.req_params.allow_getlogs_mangle then
    match req.node_config.max_blocks_distance with
    | none => .ok req
    | some d =>
      if d == 0 then .ok req
      else
        match req.data with
        | .obj kvs =>
          match lookupKV kvs "method" with
          | some (.str s) =>
            if s == "eth_getLogs" then do
              let req_data ← mangle_eth_getlogs req.data d
              .ok (req.replace_data req_data)
            else .ok req
          | _ => .ok req
        | _ => .error .attributeError
  else .ok req

/-- `EVMRPCSingleRequestPreprocessorMiddlewareBase.handle`, generic over
`process_single_req`. -/
def preprocessorHandle (proc : EVMRPCRequest → Except PyErr EVMRPCRequest)
    (next : EVMRPCRequest → MW EVMRPCResponse)
    (req : EVMRPCRequest) : MW EVMRPCResponse := do
  let reqs ← liftE (req_to_singles req)
  let reqs_mangled ← liftE (reqs.mapM proc)
  let req_mangled ← liftE (req_from_singles reqs_mangled (some req))
  next req_mangled

/-- The fully assembled `EVMRPCMangleGetlogsMiddleware.handle`. -/
def mangleGetlogsHandle (next : EVMRPCRequest → MW EVMRPCResponse)
    (req : EVMRPCRequest) : MW EVMRPCResponse :=
  preprocessorHandle mangle_process_single_req next req

/-- `RequestStatsKey` of `stats.py`. -/
structure RequestStatsKey where
  env : String
  final : Bool
  chain : String
  requester : String
  success : Bool
  x_requester : String
  method : String
  node : String
  try_n : Nat
deriving DecidableEq

/-- The mutable state of `StatsUpdater` that `upload_stats` touches: the
counter dict (association list with unique keys, in insertion order) and the
`last_sync_mts` timestamp. -/
structure StatsState where
  stats : List (RequestStatsKey × Int)
  last_sync_mts : Int
deriving DecidableEq

/-- `StatsUpdater.increment_stats_straight`:
`stats[key] = stats.setdefault(key, 0) + count`. -/
def incrStat (stats : List (RequestStatsKey × Int)) (key : RequestStatsKey)
    (count : Int) : List (RequestStatsKey × Int) :=
  match stats with
  | [] => [(key, count)]
  | (k, v) :: rest =>
    if k == key then (k, v + count) :: rest else (k, v) :: incrStat rest key count

/-- A sequence of `increment_stats_straight` calls. -/
def applyIncrs (stats : List (RequestStatsKey × Int))
    (incs : List (RequestStatsKey × Int)) : List (RequestStatsKey × Int) :=
  incs.foldl (fun m p => incrStat m p.1 p.2) stats

/-- `StatsUpdater.upload_stats` on the failing-sink path, with `now` the
monotonic time at the flush and `during` the increments that other tasks
interleave while the (suspending) upload is in flight: snapshot the map,
replace it with a fresh empty one, reset `last_sync_mts`; the upload fails,
and every `(key, count)` of the snapshot is re-added to the live map. -/
def upload_stats_failed (st : StatsState) (now : Int)
    (during : List (RequestStatsKey × Int)) : StatsState :=
  let upload_data := st.stats
  let live := applyIncrs [] during
  { stats := applyIncrs live upload_data, last_sync_mts := now }

/-- The count stored for a key (`0` when absent, as `setdefault` sees it). -/
def getCount (stats : List (RequestStatsKey × Int)) (key : RequestStatsKey) : Int :=
  match stats with
  | [] => 0
  | (k, v) :: rest => if k == key then v else getCount rest key

/-- Total of all counts in the map. -/
def sumCounts (stats : List (RequestStatsKey × Int)) : Int :=
  (stats.map Prod.snd).sum

/-- A sample node configuration used by concrete witnesses. -/
def sampleNodeConfig : EVMRPCNodeConfig :=
  { chain_name := "mainnet", node_name := "quiknode", url := "https://example/rpc" }

/-- A second sample node configuration used by concrete witnesses. -/
def sampleNodeConfigB : EVMRPCNodeConfig :=
  { chain_name := "mainnet", node_name := "infura", url := "https://example/rpc2" }

theorem charsStartsWith_iff (pat hay : List Char) :
    charsStartsWith hay pat = true ↔ ∃ t, hay = pat ++ t := by
  induction pat generalizing hay with
  | nil =>
    simp [charsStartsWith]
  | cons d ds ih =>
    cases hay with
    | nil => simp [charsStartsWith]
    | cons c cs =>
      rw [charsStartsWith]
      simp only [Bool.and_eq_true, beq_iff_eq, ih]
      constructor
      · rintro ⟨rfl, t, rfl⟩
        exact ⟨t, rfl⟩
      · rintro ⟨t, ht⟩
        injection ht with h1 h2
        exact ⟨h1, t, h2⟩

/-- Claim C3: the error classifier is a pure function of `(code, message)`
that returns `false` (non-retriable) precisely when the code is one of
`3, -32015, -32010, 32601`, the message is one of the two fixed strings, or
the message starts with one of the two fixed strings; every other pair is
retriable. -/
theorem c3_classifier_characterization (code : Int) (message : String) :
    is_evmrpc_error_response_retriable code message = false ↔
      (code = 3 ∨ code = -32015 ∨ code = -32010 ∨ code = 32601)
      ∨ (message = ": tx already in mempool"
        ∨ message = "RPC error response: RPC error response: INTERNAL_ERROR: nonce too low")
      ∨ (∃ t, message.data = "nonce too low: ".data ++ t)
      ∨ (∃ t, message.data = "rpc error: code = Unknown desc = execution reverted".data ++ t) := by
  rw [is_evmrpc_error_response_retriable]
  simp only [EVMRPC_NONRETRIABLE_CODES, EVMRPC_NONRETRIABLE_MESSAGES,
    EVMRPC_NONRETRIABLE_MESSAGE_STARTS, List.contains_cons, List.contains_nil,
    List.any_cons, List.any_nil, Bool.or_false, Bool.or_eq_true, beq_iff_eq,
    charsStartsWith_iff]
  split_ifs with h1 h2 h3 <;>
    simp_all [charsStartsWith_iff, Bool.eq_false_iff]

/-- Claim C9: `req_from_singles` on the empty list always raises
`ValueError("Cannot combine zero requests")`, whatever `req_to_match` is. -/
theorem c9_from_singles_empty_raises (req_to_match : Option EVMRPCRequest) :
    req_from_singles [] req_to_match
      = .error (.valueError "Cannot combine zero requests") := rfl

theorem hasErrorsScan_iff (items : List JVal) :
    hasErrorsScan items = true ↔
      ∃ l1 x l2, items = l1 ++ x :: l2 ∧ pyContainsError x = some true ∧
        ∀ y ∈ l1, pyContainsError y ≠ none := by
  induction items with
  | nil =>
    simp [hasErrorsScan]
  | cons a as ih =>
    rw [hasErrorsScan]
    cases hpc : pyContainsError a with
    | none =>
      simp only [Bool.false_eq_true, false_iff]
      rintro ⟨l1, x, l2, heq, htrue, hpre⟩
      cases l1 with
      | nil =>
        injection heq with h1 _
        rw [h1] at hpc
        rw [hpc] at htrue
        cases htrue
      | cons b l1t =>
        injection heq with h1 _
        exact hpre a (by rw [h1]; exact List.mem_cons_self _ _) hpc
    | some b =>
      cases b with
      | true =>
        simp only [true_iff]
        exact ⟨[], a, as, rfl, hpc, by simp⟩
      | false =>
        rw [ih]
        constructor
        · rintro ⟨l1, x, l2, heq, htrue, hpre⟩
          refine ⟨a :: l1, x, l2, by rw [heq]; rfl, htrue, ?_⟩
          intro y hy
          rcases List.mem_cons.mp hy with rfl | hy2
          · rw [hpc]; simp
          · exact hpre y hy2
        · rintro ⟨l1, x, l2, heq, htrue, hpre⟩
          cases l1 with
          | nil =>
            injection heq with h1 _
            rw [h1] at hpc
            rw [hpc] at htrue
            injection htrue with hb
            cases hb
          | cons b l1t =>
            injection heq with h1 h2
            exact ⟨l1t, x, l2, h2, htrue, fun y hy => hpre y (List.mem_cons_of_mem _ hy)⟩

/-- Claim C10, counterexample: `has_errors` is not true for every list with
an item containing `"error"`.  In `[5, {"error": null}]` the second item has
the `"error"` key, but the membership test on `5` raises first, the
`except` turns that into `False`, and `has_errors` returns `false`. -/
theorem c10_counterexample :
    EVMRPCResponse.has_errors
        { data := .arr [.int 5, .obj [("error", .null)]],
          req := .single (.obj []) sampleNodeConfig {} 0 } = false
      ∧ pyContainsError (.obj [("error", .null)]) = some true := by
  constructor
  · rfl
  · decide

/-- Claim C10 (amended): `has_errors` is total; it is true for a dict with an
`"error"` key, and for a list exactly when a left-to-right scan reaches an
item containing `"error"` with every earlier item supporting the membership
test (an earlier raising item makes the whole check `false`); any other data
shape yields `false`. -/
theorem c10_has_errors_amended :
    (∀ kvs, hasErrorsData (.obj kvs) = kvs.any (fun kv => kv.1 == "error"))
    ∧ (∀ items, hasErrorsData (.arr items) = true ↔
        ∃ l1 x l2, items = l1 ++ x :: l2 ∧ pyContainsError x = some true ∧
          ∀ y ∈ l1, pyContainsError y ≠ none)
    ∧ (∀ s, hasErrorsData (.str s) = false)
    ∧ hasErrorsData .null = false
    ∧ (∀ b, hasErrorsData (.bool b) = false)
    ∧ (∀ n, hasErrorsData (.int n) = false) :=
  ⟨fun _ => rfl, fun items => hasErrorsScan_iff items,
   fun _ => rfl, rfl, fun _ => rfl, fun _ => rfl⟩

/-- The round trip of claim C1:
`req_from_singles(req_to_singles(R), req_to_match=R)`. -/
def roundtripMatch (req : EVMRPCRequest) : Except PyErr EVMRPCRequest :=
  (req_to_singles req).bind (fun singles => req_from_singles singles (some req))

/-- Claim C1, counterexample: for a `Batch` of length 1 the round trip does
not return the request unchanged — `req.replace(data=[req.data])` keeps the
runtime class of the element, so the result is a `Single`-classed request
carrying the one-element list payload, which is not `==` the original
`Batch`. -/
theorem c1_counterexample :
    roundtripMatch (.batch (.arr [.obj []]) sampleNodeConfig {} 0)
        ≠ .ok (.batch (.arr [.obj []]) sampleNodeConfig {} 0)
      ∧ roundtripMatch (.batch (.arr [.obj []]) sampleNodeConfig {} 0)
        = .ok (.single (.arr [.obj []]) sampleNodeConfig {} 0) := by
  constructor
  · decide
  · decide

/-- Claim C1 (amended): the round trip returns the request unchanged for
every `Single` with dict data and every `Batch` of two or more elements; for
a `Batch` of exactly one (dict) element it returns a `Single`-classed request
carrying the same one-element list payload instead of the `Batch` itself
(and for a `Batch` of zero elements it raises, see C9). -/
theorem c1_roundtrip_amended :
    (∀ (kvs : List (String × JVal)) (nc : EVMRPCNodeConfig)
        (rp : EVMRPCRequestParams) (t : Nat),
      roundtripMatch (.single (.obj kvs) nc rp t) = .ok (.single (.obj kvs) nc rp t))
    ∧ (∀ (items : List JVal) (nc : EVMRPCNodeConfig)
        (rp : EVMRPCRequestParams) (t : Nat), 2 ≤ items.length →
      roundtripMatch (.batch (.arr items) nc rp t) = .ok (.batch (.arr items) nc rp t))
    ∧ (∀ (kvs : List (String × JVal)) (nc : EVMRPCNodeConfig)
        (rp : EVMRPCRequestParams) (t : Nat),
      roundtripMatch (.batch (.arr [.obj kvs]) nc rp t)
        = .ok (.single (.arr [.obj kvs]) nc rp t)) := by
  refine ⟨?_, ?_, ?_⟩
  · intro kvs nc rp t
    rfl
  · intro items nc rp t hlen
    match items, hlen with
    | a :: b :: rest, _ =>
      simp only [roundtripMatch, req_to_singles, Except.bind, List.map_cons]
      rw [req_from_singles]
      · split_ifs with hcond
        · simp only [EVMRPCRequest.data, EVMRPCRequest.node_config, EVMRPCRequest.req_params,
            EVMRPCRequest.try_n, EVMRPCRequest.replace_data, List.map_map,
            List.map_cons]
          rw [show (EVMRPCRequest.data ∘ fun subreq => EVMRPCRequest.single subreq nc rp t)
            = id from rfl, List.map_id]
        · refine absurd ?_ hcond
          rw [List.isEmpty_iff, List.filter_eq_nil_iff]
          intro r hr
          simp only [List.mem_cons, List.mem_map] at hr
          rcases hr with rfl | rfl | ⟨x, -, rfl⟩ <;> simp [EVMRPCRequest.replace_data]
      · simp
  · intro kvs nc rp t
    rfl

/-- Concrete instance of the amended round trip, including the
length-hypothesis case on a two-element batch. -/
theorem c1_roundtrip_amended_witness :
    2 ≤ ([JVal.obj [], JVal.obj [("a", .int 1)]] : List JVal).length
    ∧ roundtripMatch (.batch (.arr [.obj [], .obj [("a", .int 1)]]) sampleNodeConfig {} 0)
        = .ok (.batch (.arr [.obj [], .obj [("a", .int 1)]]) sampleNodeConfig {} 0)
    ∧ roundtripMatch (.single (.obj [("id", .int 1)]) sampleNodeConfig {} 0)
        = .ok (.single (.obj [("id", .int 1)]) sampleNodeConfig {} 0) :=
  ⟨by decide,
   c1_roundtrip_amended.2.1 [.obj [], .obj [("a", .int 1)]] sampleNodeConfig {} 0 (by decide),
   c1_roundtrip_amended.1 [("id", .int 1)] sampleNodeConfig {} 0⟩

/-- A decoded body that `_request_one_call` accepts: a JSON list or dict. -/
def JVal.isContainer : JVal → Bool
  | .arr _ => true
  | .obj _ => true
  | _ => false

/-- Claim C2: for every decodable (list/dict) payload, RPC-level
classification runs before the HTTP-status check — any retriable RPC error
raises `EVMRPCErrorResponseException` regardless of status; with only
terminal (or no) RPC errors and status 200 the response is returned
verbatim; and a non-200 status with no retriable RPC error raises a terminal
`EVMRPCErrorException` carrying that status. -/
theorem c2_classification_before_status (req : EVMRPCRequest) (status : Int)
    (raw : String) (v : JVal) (hv : v.isContainer = true) :
    request_one_call req status raw (some v)
      = (if (parseResponseErrors v).any
            (fun e => is_evmrpc_error_response_retriable e.code e.message)
         then .error (.errorResponseException { data := v, req := req })
         else if status = 200 then .ok { data := v, req := req }
         else .error (.errorException (some { data := v, req := req }) status
                "EVMRPC node error status")) := by
  cases v with
  | null => exact Bool.noConfusion hv
  | bool b => exact Bool.noConfusion hv
  | int n => exact Bool.noConfusion hv
  | str s => exact Bool.noConfusion hv
  | arr items =>
    rw [request_one_call]
    simp only [check_response]
    generalize parseResponseErrors _ = errs
    rcases errs with _ | ⟨e, es⟩
    · simp [beq_iff_eq]
    · cases h : (e :: es).any
          (fun e => is_evmrpc_error_response_retriable e.code e.message) <;>
        simp [h, beq_iff_eq]
  | obj kvs =>
    rw [request_one_call]
    simp only [check_response]
    generalize parseResponseErrors _ = errs
    rcases errs with _ | ⟨e, es⟩
    · simp [beq_iff_eq]
    · cases h : (e :: es).any
          (fun e => is_evmrpc_error_response_retriable e.code e.message) <;>
        simp [h, beq_iff_eq]

/-- Concrete instance: a retriable error payload with HTTP status 500 raises
the retriable-error-response exception rather than the status error. -/
theorem c2_classification_before_status_witness :
    (JVal.obj [("error", .obj [("code", .int (-32000)), ("message", .str "boom")])]).isContainer
        = true
    ∧ request_one_call (.single (.obj []) sampleNodeConfig {} 0) 500 "raw"
        (some (.obj [("error", .obj [("code", .int (-32000)), ("message", .str "boom")])]))
      = .error (.errorResponseException
          { data := .obj [("error", .obj [("code", .int (-32000)), ("message", .str "boom")])],
            req := .single (.obj []) sampleNodeConfig {} 0 }) :=
  ⟨by decide,
   (c2_classification_before_status (.single (.obj []) sampleNodeConfig {} 0) 500 "raw"
      (.obj [("error", .obj [("code", .int (-32000)), ("message", .str "boom")])])
      (by decide)).trans (by decide)⟩

theorem rotate1_eq (x : String) (xs : List String) :
    (x :: xs).rotate 1 = xs ++ [x] := by
  rw [List.rotate_cons_succ, List.rotate_zero]

theorem get_node_config_step (nodes : List (String × EVMRPCNodeConfig))
    (chain : String) (m : List String) (hne : m ≠ [])
    (hlk : ∀ n ∈ m, (lookupNode nodes n).isSome) :
    ∃ cfg nm, get_node_config ⟨nodes, m⟩ chain true = .ok (cfg, ⟨nodes, m.rotate 1⟩)
      ∧ (m.rotate 1).head? = some nm
      ∧ lookupNode nodes nm = some cfg := by
  match m, hne with
  | x :: xs, _ =>
    rw [rotate1_eq]
    have hhd : (xs ++ [x]).head? = some ((xs ++ [x]).headD x) := by
      cases xs with
      | nil => rfl
      | cons y ys => rfl
    have hmem : (xs ++ [x]).headD x ∈ x :: xs := by
      cases xs with
      | nil => simp
      | cons y ys => simp
    obtain ⟨cfg, hcfg⟩ := Option.isSome_iff_exists.mp (hlk _ hmem)
    refine ⟨cfg, (xs ++ [x]).headD x, ?_, hhd, hcfg⟩
    rw [get_node_config]
    simp only [if_true]
    rw [hcfg]

theorem rotKState_eq (nodes : List (String × EVMRPCNodeConfig)) (chain : String)
    (l : List String) (hne : l ≠ [])
    (hlk : ∀ n ∈ l, (lookupNode nodes n).isSome) (k : Nat) :
    rotKState ⟨nodes, l⟩ chain k = ⟨nodes, l.rotate k⟩ := by
  induction k with
  | zero => simp [rotKState]
  | succ k ih =>
    rw [rotKState, ih]
    have hne2 : l.rotate k ≠ [] := by
      intro h
      exact hne (by simpa using congrArg List.length h)
    have hlk2 : ∀ n ∈ l.rotate k, (lookupNode nodes n).isSome := by
      intro n hn
      exact hlk n ((List.rotate_perm l k).mem_iff.mp hn)
    obtain ⟨cfg, nm, hstep, -, -⟩ := get_node_config_step nodes chain (l.rotate k) hne2 hlk2
    rw [hstep, List.rotate_rotate]

/-- Claim C5: with a non-empty pool whose names all resolve to configs,
after `K` forced rotations the pool state is exactly the original list
rotated by `K` (hence a permutation of it -- no node is ever dropped or
added), and the next `get_node_config(rotate=True)` call moves the current
head to the tail, leaves the pool as the original rotated by `K+1`, and
returns the config of the new head, which is the node at index
`(K+1) mod N` of the original order (the initial head being index 0). -/
theorem c5_rotation_characterization (nodes : List (String × EVMRPCNodeConfig)) (chain : String)
    (l : List String) (k : Nat) (hne : l ≠ [])
    (hlk : ∀ n ∈ l, (lookupNode nodes n).isSome) :
    (rotKState ⟨nodes, l⟩ chain k).nodes = nodes
    ∧ (rotKState ⟨nodes, l⟩ chain k).rotation = l.rotate k
    ∧ (rotKState ⟨nodes, l⟩ chain k).rotation.Perm l
    ∧ ∃ cfg, get_node_config (rotKState ⟨nodes, l⟩ chain k) chain true
        = .ok (cfg, ⟨nodes, l.rotate (k + 1)⟩)
      ∧ ∃ h : (k + 1) % l.length < l.length,
          (l.rotate (k + 1)).head? = some (l.get ⟨(k + 1) % l.length, h⟩)
          ∧ lookupNode nodes (l.get ⟨(k + 1) % l.length, h⟩) = some cfg := by
  have hstate := rotKState_eq nodes chain l hne hlk k
  have hne2 : l.rotate k ≠ [] := by
    intro h
    exact hne (by simpa using congrArg List.length h)
  have hlk2 : ∀ n ∈ l.rotate k, (lookupNode nodes n).isSome := by
    intro n hn
    exact hlk n ((List.rotate_perm l k).mem_iff.mp hn)
  obtain ⟨cfg, nm, hstep, hhd, hlook⟩ := get_node_config_step nodes chain (l.rotate k) hne2 hlk2
  rw [List.rotate_rotate] at hstep
  simp only [List.rotate_rotate] at hhd
  have hlen : 0 < l.length := by
    cases l with
    | nil => exact absurd rfl hne
    | cons a as => simp
  have hmod : (k + 1) % l.length < l.length := Nat.mod_lt _ hlen
  have hhd2 : (l.rotate (k + 1)).head? = some (l.get ⟨(k + 1) % l.length, hmod⟩) := by
    rw [← List.rotate_mod, List.head?_rotate hmod]
    simp [List.getElem?_eq_getElem, List.get_eq_getElem]
  have hnm : nm = l.get ⟨(k + 1) % l.length, hmod⟩ := by
    have := hhd2 ▸ hhd
    exact (Option.some_inj.mp this).symm
  refine ⟨by rw [hstate], by rw [hstate], by rw [hstate]; exact List.rotate_perm l k,
    cfg, by rw [hstate]; exact hstep, hmod, hhd2, by rw [← hnm]; exact hlook⟩

/-- A third sample node configuration used by concrete witnesses. -/
def sampleNodeConfigC : EVMRPCNodeConfig :=
  { chain_name := "mainnet", node_name := "ankr", url := "https://example/rpc3" }

/-- The sample pool used by concrete witnesses. -/
def sampleNodes : List (String × EVMRPCNodeConfig) :=
  [("quiknode", sampleNodeConfig), ("infura", sampleNodeConfigB), ("ankr", sampleNodeConfigC)]

/-- Concrete instance of the rotation characterization on a pool of three
nodes after four rotations. -/
theorem c5_rotation_characterization_witness :
    (rotKState ⟨sampleNodes, ["quiknode", "infura", "ankr"]⟩ "mainnet" 4).rotation
        = (["quiknode", "infura", "ankr"] : List String).rotate 4
    ∧ (rotKState ⟨sampleNodes, ["quiknode", "infura", "ankr"]⟩ "mainnet" 4).rotation.Perm
        ["quiknode", "infura", "ankr"] :=
  ⟨(c5_rotation_characterization sampleNodes "mainnet" ["quiknode", "infura", "ankr"] 4
      (by decide) (by decide)).2.1,
   (c5_rotation_characterization sampleNodes "mainnet" ["quiknode", "infura", "ankr"] 4
      (by decide) (by decide)).2.2.1⟩

theorem requestLoop_all_fail
    (pipeline : EVMRPCRequest → Except EVMRPCExc EVMRPCResponse)
    (chain : String) (data : JVal) (isB : Bool) (rp : EVMRPCRequestParams)
    (hfail : ∀ r, ∃ e, pipeline r = .error e) :
    ∀ (fuel : Nat) (st : ChainState) (cfg : EVMRPCNodeConfig) (t : Nat),
      st.rotation ≠ [] → (∀ n ∈ st.rotation, (lookupNode st.nodes n).isSome) →
      0 < fuel →
      (requestLoop pipeline chain data isB rp fuel st cfg t).attempts.length = fuel
      ∧ ∃ req exc, pipeline req = .error exc ∧ req.try_n = t + fuel - 1
          ∧ (requestLoop pipeline chain data isB rp fuel st cfg t).result
            = (match exc with
               | .errorResponseException r => Except.ok r
               | e => Except.error e) := by
  intro fuel
  induction fuel with
  | zero => intro st cfg t _ _ h; exact absurd h (by simp)
  | succ fuel ih =>
    intro st cfg t hne hlk _
    obtain ⟨exc, hexc⟩ :=
      hfail (if isB then EVMRPCRequest.batch data cfg rp t else EVMRPCRequest.single data cfg rp t)
    cases fuel with
    | zero =>
      refine ⟨?_, ⟨_, exc, hexc, ?_, ?_⟩⟩
      · simp [requestLoop, hexc]
      · cases isB <;> simp [EVMRPCRequest.try_n]
      · simp [requestLoop, hexc]
    | succ fuel2 =>
      obtain ⟨cfg2, nm, hstep, hhd, hlook⟩ :=
        get_node_config_step st.nodes chain st.rotation hne hlk
      have hne2 : st.rotation.rotate 1 ≠ [] := by
        intro h
        exact hne (by simpa using congrArg List.length h)
      have hlk2 : ∀ n ∈ st.rotation.rotate 1, (lookupNode st.nodes n).isSome := by
        intro n hn
        exact hlk n ((List.rotate_perm st.rotation 1).mem_iff.mp hn)
      have ihh := ih ⟨st.nodes, st.rotation.rotate 1⟩ cfg2 (t + 1) hne2 hlk2 (by simp)
      refine ⟨?_, ?_⟩
      · rw [requestLoop]
        simp only [hexc]
        have : st = ⟨st.nodes, st.rotation⟩ := rfl
        rw [show get_node_config st chain true
            = .ok (cfg2, ⟨st.nodes, st.rotation.rotate 1⟩) from hstep]
        simp [ihh.1]
      · obtain ⟨req, exc2, hexc2, htry, hres⟩ := ihh.2
        refine ⟨req, exc2, hexc2, by omega, ?_⟩
        rw [requestLoop]
        simp only [hexc]
        rw [show get_node_config st chain true
            = .ok (cfg2, ⟨st.nodes, st.rotation.rotate 1⟩) from hstep]
        simpa using hres

/-- Claim C4: with a pinned `node_name` the attempt limit is 1 -- exactly one
pipeline invocation is made, and when it raises, an
`EVMRPCErrorResponseException` makes the call return its `last_response`
while any other exception re-raises; without `node_name` the limit is the
default `retry_attempts = 5` -- when every attempt raises, exactly five
pipeline invocations are made and the final attempt's exception decides the
outcome by the same rule. -/
theorem c4_attempt_limit_and_final_behavior (pipeline : EVMRPCRequest → Except EVMRPCExc EVMRPCResponse)
    (st : ChainState) (chain : String) (data : JVal) (isB : Bool)
    (rp : EVMRPCRequestParams) :
    (∀ (n : String) (cfg : EVMRPCNodeConfig) (exc : EVMRPCExc),
        lookupNode st.nodes n = some cfg →
        pipeline (if isB then EVMRPCRequest.batch data cfg rp 0
                  else EVMRPCRequest.single data cfg rp 0) = .error exc →
        requestModel {} pipeline st chain data isB rp (some n)
          = { result := match exc with
                        | .errorResponseException r => Except.ok r
                        | e => Except.error e,
              attempts := [(0, cfg.node_name)], final_rotation := st.rotation })
    ∧ ((∀ r, ∃ e, pipeline r = .error e) → st.rotation ≠ [] →
        (∀ n ∈ st.rotation, (lookupNode st.nodes n).isSome) →
        (requestModel {} pipeline st chain data isB rp none).attempts.length = 5
        ∧ ∃ req exc, pipeline req = .error exc ∧ req.try_n = 4
            ∧ (requestModel {} pipeline st chain data isB rp none).result
              = (match exc with
                 | .errorResponseException r => Except.ok r
                 | e => Except.error e)) := by
  constructor
  · intro n cfg exc hlook hexc
    simp only [requestModel, Option.isSome_some, if_true, hlook]
    rw [requestLoop]
    simp [hexc]
  · intro hfail hne hlk
    obtain ⟨nds, rot⟩ := st
    match rot, hne, hlk with
    | x :: xs, _, hlk =>
      have hlookx : (lookupNode nds x).isSome := hlk x (List.mem_cons_self _ _)
      obtain ⟨cfg0, hcfg0⟩ := Option.isSome_iff_exists.mp hlookx
      have hgnc : get_node_config ⟨nds, x :: xs⟩ chain false = .ok (cfg0, ⟨nds, x :: xs⟩) := by
        simp [get_node_config, hcfg0]
      have hrm : requestModel {} pipeline ⟨nds, x :: xs⟩ chain data isB rp none
          = requestLoop pipeline chain data isB rp 5 ⟨nds, x :: xs⟩ cfg0 0 := by
        simp [requestModel, hgnc]
      rw [hrm]
      have hmain := requestLoop_all_fail pipeline chain data isB rp hfail 5
        ⟨nds, x :: xs⟩ cfg0 0 (by simp) hlk (by simp)
      exact ⟨hmain.1, hmain.2⟩

/-- A pipeline that always raises `EVMRPCErrorResponseException`, used by
concrete witnesses. -/
def samplePipeFail : EVMRPCRequest → Except EVMRPCExc EVMRPCResponse :=
  fun r => .error (.errorResponseException { data := .null, req := r })

/-- The sample client state used by concrete witnesses. -/
def sampleChainState : ChainState :=
  ⟨sampleNodes, ["quiknode", "infura", "ankr"]⟩

/-- Concrete instance: a pinned request makes one attempt and returns the
`last_response` of the raised response exception; an unpinned one against an
always-failing pipeline makes exactly five attempts. -/
theorem c4_attempt_limit_and_final_behavior_witness :
    requestModel {} samplePipeFail sampleChainState "mainnet" (.obj []) false {} (some "infura")
        = { result := .ok { data := .null, req := .single (.obj []) sampleNodeConfigB {} 0 },
            attempts := [(0, "infura")],
            final_rotation := ["quiknode", "infura", "ankr"] }
    ∧ (requestModel {} samplePipeFail sampleChainState "mainnet" (.obj [])
          false {} none).attempts.length = 5 :=
  ⟨((c4_attempt_limit_and_final_behavior samplePipeFail sampleChainState "mainnet"
        (.obj []) false {}).1 "infura" sampleNodeConfigB
        (.errorResponseException
          { data := .null, req := .single (.obj []) sampleNodeConfigB {} 0 })
        (by decide) rfl).trans (by decide),
   ((c4_attempt_limit_and_final_behavior samplePipeFail sampleChainState "mainnet"
        (.obj []) false {}).2 (fun r => ⟨_, rfl⟩) (by decide) (by decide)).1⟩

/-- Claim C6: for a `Single` request whose `method` is `"eth_chainId"` and
whose `req_params.chain_id` is `c`, the ChainId middleware returns
`{jsonrpc, id, result: hex(c)}` -- an object, never a one-element list --
with `id` taken from the request and `jsonrpc` the request's (truthy) value
or the `"2.0"` default, and it forwards nothing to the next handler: the
upstream-call log stays empty for every possible next handler. -/
theorem c6_chainid_short_circuit (upstream : EVMRPCRequest → EVMRPCResponse)
    (kvs : List (String × JVal)) (nc : EVMRPCNodeConfig)
    (rp : EVMRPCRequestParams) (t : Nat) (c : Int)
    (hm : lookupKV kvs "method" = some (.str "eth_chainId"))
    (hc : rp.chain_id = some c) :
    chainIdHandle (loggingNext upstream) (.single (.obj kvs) nc rp t) []
      = .ok { data := .obj
                [("jsonrpc",
                  match lookupKV kvs "jsonrpc" with
                  | some v => if pyFalsy v then .str "2.0" else v
                  | none => .str "2.0"),
                 ("id", (lookupKV kvs "id").getD .null),
                 ("result", .str (pyHex c))],
              req := .single (.obj kvs) nc rp t } [] := by
  simp [chainIdHandle, srhHandle, req_to_singles, pick_out_special_items, pickOutGo,
    chainid_is_req_relevant, chainid_handle_single_req, from_single_req,
    EVMRPCRequest.data, EVMRPCRequest.req_params, hm, hc, liftE,
    srhHandleRelevant, match_batch, bind, EStateM.bind, pure, EStateM.pure,
    List.mapM, List.mapM.loop, Except.bind, Except.pure, beq_self_eq_true,
    Option.isSome, Option.getD]

/-- An upstream stub used by concrete witnesses. -/
def sampleUpstream : EVMRPCRequest → EVMRPCResponse :=
  fun r => { data := .null, req := r }

/-- Concrete instance: `eth_chainId` with `chain_id=1` yields
`{jsonrpc: "2.0", id: 1, result: "0x1"}` and no upstream call. -/
theorem c6_chainid_short_circuit_witness :
    chainIdHandle (loggingNext sampleUpstream)
        (.single (.obj [("jsonrpc", .str "2.0"), ("id", .int 1),
                        ("method", .str "eth_chainId")])
          sampleNodeConfig { chain_id := some 1 } 0) []
      = .ok { data := .obj [("jsonrpc", .str "2.0"), ("id", .int 1),
                            ("result", .str "0x1")],
              req := .single (.obj [("jsonrpc", .str "2.0"), ("id", .int 1),
                                    ("method", .str "eth_chainId")])
                sampleNodeConfig { chain_id := some 1 } 0 } [] :=
  c6_chainid_short_circuit sampleUpstream
    [("jsonrpc", .str "2.0"), ("id", .int 1), ("method", .str "eth_chainId")]
    sampleNodeConfig { chain_id := some 1 } 0 1 rfl rfl

/-- An `eth_getLogs` request with mangling enabled, `max_blocks_distance`
set, and a `fromBlock` that does not parse as hex. -/
def sampleGetlogsBadReq : EVMRPCRequest :=
  .single (.obj [("method", .str "eth_getLogs"),
                 ("params", .arr [.obj [("fromBlock", .str "xyz"), ("toBlock", .str "0x10")]])])
    sampleNodeConfig { allow_getlogs_mangle := true } 0

/-- Claim C7: at the failing input -- `eth_getLogs` with
`allow_getlogs_mangle`, `max_blocks_distance=3000` and a non-hex
`fromBlock` -- the MangleGetlogs middleware does not forward the request
untouched: the `except ValueError` log statement references `from_block`,
which is unbound when `int(from_block_hex, 16)` itself raised, so an
`UnboundLocalError` propagates out of the middleware for every next handler
and call-log state. -/
theorem c7_mangle_unbound_local (next : EVMRPCRequest → MW EVMRPCResponse)
    (s : List EVMRPCRequest) :
    mangleGetlogsHandle next sampleGetlogsBadReq s
      = .error (.unboundLocalError "from_block") s := rfl

/-- Per-key total of a list of increments. -/
def keyTotal : List (RequestStatsKey × Int) → RequestStatsKey → Int
  | [], _ => 0
  | (k1, c) :: rest, k => (if k = k1 then c else 0) + keyTotal rest k

theorem getCount_incrStat (m : List (RequestStatsKey × Int)) (k : RequestStatsKey)
    (c : Int) (k2 : RequestStatsKey) :
    getCount (incrStat m k c) k2 = getCount m k2 + (if k2 = k then c else 0) := by
  induction m with
  | nil =>
    by_cases h : k2 = k
    · subst h
      simp [incrStat, getCount]
    · have h2 : ¬ (k == k2) = true := by
        simp only [beq_iff_eq]
        exact fun hh => h hh.symm
      simp [incrStat, getCount, h, h2]
  | cons p rest ih =>
    obtain ⟨k1, v⟩ := p
    rw [incrStat]
    by_cases hk : k1 = k
    · subst hk
      rw [if_pos (by simp)]
      by_cases h2 : k1 = k2
      · subst h2
        rw [getCount, if_pos (by simp), getCount, if_pos (by simp), if_pos rfl]
      · have h2b : ¬ (k1 == k2) = true := by simp [beq_iff_eq, h2]
        rw [getCount, if_neg h2b, getCount, if_neg h2b,
          if_neg (fun hh => h2 hh.symm)]
        omega
    · have hkb : ¬ (k1 == k) = true := by simp [beq_iff_eq, hk]
      rw [if_neg hkb]
      by_cases h2 : k1 = k2
      · subst h2
        rw [getCount, if_pos (by simp), getCount, if_pos (by simp),
          if_neg (by intro hh; rw [hh] at hk; exact hk rfl)]
        omega
      · have h2b : ¬ (k1 == k2) = true := by simp [beq_iff_eq, h2]
        rw [getCount, if_neg h2b, getCount, if_neg h2b, ih]
theorem sumCounts_incrStat (m : List (RequestStatsKey × Int)) (k : RequestStatsKey)
    (c : Int) : sumCounts (incrStat m k c) = sumCounts m + c := by
  induction m with
  | nil => simp [incrStat, sumCounts]
  | cons p rest ih =>
    obtain ⟨k1, v⟩ := p
    rw [incrStat]
    split_ifs with h1
    · simp [sumCounts]
      omega
    · simp only [sumCounts, List.map_cons, List.sum_cons] at ih ⊢
      omega

theorem getCount_applyIncrs (l : List (RequestStatsKey × Int))
    (live : List (RequestStatsKey × Int)) (k : RequestStatsKey) :
    getCount (applyIncrs live l) k = getCount live k + keyTotal l k := by
  induction l generalizing live with
  | nil => simp [applyIncrs, keyTotal]
  | cons p rest ih =>
    obtain ⟨k1, c⟩ := p
    rw [show applyIncrs live ((k1, c) :: rest) = applyIncrs (incrStat live k1 c) rest from rfl,
      ih, getCount_incrStat, keyTotal]
    omega

theorem sumCounts_applyIncrs (l : List (RequestStatsKey × Int))
    (live : List (RequestStatsKey × Int)) :
    sumCounts (applyIncrs live l) = sumCounts live + sumCounts l := by
  induction l generalizing live with
  | nil => simp [applyIncrs, sumCounts]
  | cons p rest ih =>
    obtain ⟨k1, c⟩ := p
    rw [show applyIncrs live ((k1, c) :: rest) = applyIncrs (incrStat live k1 c) rest from rfl,
      ih, sumCounts_incrStat]
    simp only [sumCounts, List.map_cons, List.sum_cons]
    omega

theorem keyTotal_of_not_mem (m : List (RequestStatsKey × Int)) (k : RequestStatsKey)
    (h : k ∉ m.map Prod.fst) : keyTotal m k = 0 := by
  induction m with
  | nil => rfl
  | cons p rest ih =>
    obtain ⟨k1, c⟩ := p
    simp only [List.map_cons, List.mem_cons] at h
    push_neg at h
    rw [keyTotal, if_neg h.1, ih h.2]
    omega

theorem keyTotal_eq_getCount (m : List (RequestStatsKey × Int))
    (h : (m.map Prod.fst).Nodup) (k : RequestStatsKey) :
    keyTotal m k = getCount m k := by
  induction m with
  | nil => rfl
  | cons p rest ih =>
    obtain ⟨k1, c⟩ := p
    simp only [List.map_cons, List.nodup_cons] at h
    rw [keyTotal, getCount]
    by_cases h1 : k = k1
    · subst h1
      rw [if_pos rfl, if_pos (by simp), keyTotal_of_not_mem rest k h.1]
      omega
    · rw [if_neg h1, if_neg (by simp only [beq_iff_eq]; exact fun hh => h1 hh.symm),
        ih h.2]
      omega

/-- Claim C8: `upload_stats` snapshots the counter map, replaces it with an
empty one and resets `last_sync`; when the sink upload fails, every
`(key, count)` of the snapshot is re-added to the live map, so for every key
the resulting count is the pre-flush count plus whatever increments landed
during the upload, and the total of all counts is the pre-flush total plus
the total incremented during the upload (no counts are lost). -/
theorem c8_stats_conservation_on_failure (st : StatsState) (now : Int) (during : List (RequestStatsKey × Int))
    (hnodup : (st.stats.map Prod.fst).Nodup) :
    (upload_stats_failed st now during).last_sync_mts = now
    ∧ (∀ k, getCount (upload_stats_failed st now during).stats k
        = getCount st.stats k + getCount (applyIncrs [] during) k)
    ∧ sumCounts (upload_stats_failed st now during).stats
        = sumCounts st.stats + sumCounts during := by
  refine ⟨rfl, ?_, ?_⟩
  · intro k
    show getCount (applyIncrs (applyIncrs [] during) st.stats) k = _
    rw [getCount_applyIncrs, keyTotal_eq_getCount st.stats hnodup]
    omega
  · show sumCounts (applyIncrs (applyIncrs [] during) st.stats) = _
    rw [sumCounts_applyIncrs, sumCounts_applyIncrs]
    simp only [sumCounts, List.map_nil, List.sum_nil]
    omega

/-- A sample stats key used by concrete witnesses. -/
def sampleStatsKey (node : String) : RequestStatsKey :=
  { env := "tests", final := true, chain := "mainnet", requester := "r",
    success := true, x_requester := "x", method := "eth_call", node := node,
    try_n := 0 }

/-- Concrete instance of stats conservation: two keys with counts 3 and 2,
one concurrent increment of 1 during the failing flush. -/
theorem c8_stats_conservation_on_failure_witness :
    (upload_stats_failed
        ⟨[(sampleStatsKey "quiknode", 3), (sampleStatsKey "infura", 2)], 0⟩ 60
        [(sampleStatsKey "quiknode", 1)]).last_sync_mts = 60
    ∧ getCount (upload_stats_failed
        ⟨[(sampleStatsKey "quiknode", 3), (sampleStatsKey "infura", 2)], 0⟩ 60
        [(sampleStatsKey "quiknode", 1)]).stats (sampleStatsKey "quiknode")
      = getCount [(sampleStatsKey "quiknode", 3), (sampleStatsKey "infura", 2)]
          (sampleStatsKey "quiknode")
        + getCount (applyIncrs [] [(sampleStatsKey "quiknode", 1)])
            (sampleStatsKey "quiknode")
    ∧ sumCounts (upload_stats_failed
        ⟨[(sampleStatsKey "quiknode", 3), (sampleStatsKey "infura", 2)], 0⟩ 60
        [(sampleStatsKey "quiknode", 1)]).stats
      = sumCounts [(sampleStatsKey "quiknode", 3), (sampleStatsKey "infura", 2)]
        + sumCounts [(sampleStatsKey "quiknode", 1)] :=
  ⟨(c8_stats_conservation_on_failure
      ⟨[(sampleStatsKey "quiknode", 3), (sampleStatsKey "infura", 2)], 0⟩ 60
      [(sampleStatsKey "quiknode", 1)] (by decide)).1,
   (c8_stats_conservation_on_failure
      ⟨[(sampleStatsKey "quiknode", 3), (sampleStatsKey "infura", 2)], 0⟩ 60
      [(sampleStatsKey "quiknode", 1)] (by decide)).2.1 (sampleStatsKey "quiknode"),
   (c8_stats_conservation_on_failure
      ⟨[(sampleStatsKey "quiknode", 3), (sampleStatsKey "infura", 2)], 0⟩ 60
      [(sampleStatsKey "quiknode", 1)] (by decide)).2.2⟩
